import Mathlib

/-!
A shallow embedding of `src/evals/webvoyager/data/patch_tasks.py`: a one-shot
batch utility that loads a JSON patch table (`patches.json`), streams a
newline-delimited file of JSON task records (`possibleTasks.jsonl`), rewrites
the `ques` field of a record when the patch table has an entry for its `id`
whose `prev` text equals the record's current `ques`, writes every record to
the output file (`patchedTasks.jsonl`), and finally prints a one-line summary.
Mismatches produce a warning on standard error and leave the record unchanged.

Python dicts are modelled as insertion-ordered association lists (as produced
by `json.loads`: string keys, duplicates collapsed last-write-wins), file
streams as lists, and uncaught exceptions as `Except` errors that abort the
remainder of the run.
-/

namespace PatchTasks

/-- JSON-compatible values: a parsed task record maps field names to these. -/
inductive JVal where
  | str : String → JVal
  | num : Int → JVal
  | bool : Bool → JVal
  | null : JVal
  | arr : List JVal → JVal
  | obj : List (String × JVal) → JVal

/-- A task record: one parsed line of `possibleTasks.jsonl`, i.e. a Python
dict represented as an insertion-ordered association list with string keys. -/
abbrev Record := List (String × JVal)

/-- Python `d[k]` on a task record: the binding of `k` (keys produced by
`json.loads` are unique, so the first binding is the binding). -/
def lookupField : Record → String → Option JVal
  | [], _ => none
  | (k', v) :: rest, k => if k' == k then some v else lookupField rest k

/-- Python `d[k] = v` on a task record: an existing key keeps its position and
takes the new value; a fresh key is appended at the end of the dict. -/
def setField : Record → String → JVal → Record
  | [], k, v => [(k, v)]
  | (k', v') :: rest, k, v =>
    if k' == k then (k, v) :: rest else (k', v') :: setField rest k v

/-- Python `x == s` for a `str` value `s`: equal strings compare equal and a
non-`str` value never equals a `str`. -/
def JVal.eqStr : JVal → String → Bool
  | JVal.str s, t => s == t
  | _, _ => false

/-- One entry of the patch table: the object `{"prev": ..., "new": ...}`. -/
structure Patch where
  prev : String
  new : String
  deriving DecidableEq

/-- Inserting one key/value pair into the patch-table dict: a key already
present keeps its original position but takes the later value (last write
wins); a fresh key is appended. -/
def insertLWW : List (String × Patch) → String → Patch → List (String × Patch)
  | [], k, p => [(k, p)]
  | (k', p') :: rest, k, p =>
    if k' == k then (k, p) :: rest else (k', p') :: insertLWW rest k p

/-- `json.load` of `patches.json`: the key/value pairs of the source object,
in textual order, are inserted one by one into an initially empty dict. -/
def loadPatches (src : List (String × Patch)) : List (String × Patch) :=
  src.foldl (fun tbl kp => insertLWW tbl kp.1 kp.2) []

/-- Dict lookup in the loaded patch table by key string. -/
def lookupPatch : List (String × Patch) → String → Option Patch
  | [], _ => none
  | (k', p) :: rest, k => if k' == k then some p else lookupPatch rest k

/-- `task_id in patches` combined with `patches[task_id]`: the patch table has
`str` keys, so only a `str` task id can match an entry. -/
def tableLookup (patches : List (String × Patch)) : JVal → Option Patch
  | JVal.str s => lookupPatch patches s
  | _ => none

/-- The data carried by the three `stderr` lines of a mismatch warning: the
task id, the expected `prev` text, and the `ques` value actually found. -/
structure Warning where
  id : JVal
  expected : String
  found : JVal

/-- The uncaught exceptions that abort a run. -/
inductive RunError where
  | patchLoadError : RunError
  | parseError : RunError
  | missingField : String → RunError
  deriving DecidableEq

/-- One line of `possibleTasks.jsonl`: either `json.loads` succeeds and yields
a record, or it raises (modelled abstractly as `malformed`). -/
inductive Line where
  | malformed : Line
  | good : Record → Line

/-- The loop body for one parsed task (source lines 18-31): read `task['id']`
(KeyError aborts), look the id up in the patch table; on a hit compare
`task['ques']` (KeyError aborts) with `patch['prev']` and either rewrite
`ques` to `patch['new']` (counting the patch) or emit a mismatch warning.
Returns the record to write, the warning if any, and whether it was patched. -/
def processTask (patches : List (String × Patch)) (task : Record) :
    Except RunError (Record × Option Warning × Bool) :=
  match lookupField task "id" with
  | none => Except.error (RunError.missingField "id")
  | some task_id =>
    match tableLookup patches task_id with
    | none => Except.ok (task, none, false)
    | some patch =>
      match lookupField task "ques" with
      | none => Except.error (RunError.missingField "ques")
      | some q =>
        if JVal.eqStr q patch.prev then
          Except.ok (setField task "ques" (JVal.str patch.new), none, true)
        else
          Except.ok (task, some ⟨task_id, patch.prev, q⟩, false)

/-- The mutable state of the loop: records written to `patchedTasks.jsonl`,
warnings printed to `stderr`, and `patched_count`. -/
structure RunState where
  output : List Record
  warnings : List Warning
  patched_count : Nat

/-- The `for line in input_file` loop (source lines 16-33): each line is
parsed and processed; a parse failure or a KeyError aborts immediately,
leaving the state written so far; otherwise the record is written (patched or
original), warnings accumulate, and the count advances. -/
def runLines (patches : List (String × Patch)) :
    List Line → RunState → RunState × Option RunError
  | [], st => (st, none)
  | Line.malformed :: _, st => (st, some RunError.parseError)
  | Line.good task :: rest, st =>
    match processTask patches task with
    | Except.error e => (st, some e)
    | Except.ok (r, w, b) =>
      runLines patches rest
        ⟨st.output ++ [r], st.warnings ++ w.toList,
          st.patched_count + (if b then 1 else 0)⟩

/-- The content of `patches.json`: either `json.load` raises, or it yields the
source object's key/value pairs in textual order. -/
inductive PatchSrc where
  | malformed : PatchSrc
  | ok : List (String × Patch) → PatchSrc

/-- Everything a run leaves behind: records written to the output file,
warnings on `stderr`, the summary line's numbers if it was printed, and the
error that aborted the run if one did. -/
structure RunResult where
  output : List Record
  warnings : List Warning
  summary : Option (Nat × Nat)
  errored : Option RunError

/-- The whole of `main` (source lines 6-35): load the patch table (a raise
here aborts before anything is written), run the loop, and on normal
completion print `patched_count` out of `len(patches)`. -/
def run (src : PatchSrc) (lines : List Line) : RunResult :=
  match src with
  | PatchSrc.malformed => ⟨[], [], none, some RunError.patchLoadError⟩
  | PatchSrc.ok psrc =>
    match runLines (loadPatches psrc) lines ⟨[], [], 0⟩ with
    | (st, none) =>
      ⟨st.output, st.warnings,
        some (st.patched_count, (loadPatches psrc).length), none⟩
    | (st, some e) => ⟨st.output, st.warnings, none, some e⟩

/-- The text of the final summary line (source line 35). -/
def summaryLine (applied total : Nat) : String :=
  "Applied " ++ toString applied ++ " patches out of " ++ toString total ++
    " available patches"

/-- The summary line actually printed by a run, if any. -/
def summaryText (res : RunResult) : Option String :=
  res.summary.map (fun p => summaryLine p.1 p.2)

/-- The id value of a line's record, if the line parses and has one. -/
def lineId : Line → Option JVal
  | Line.malformed => none
  | Line.good task => lookupField task "id"

/-- A well-formed line in the sense of the spec's data model: it parses, and
the record has both required fields `id` and `ques`. -/
def wellFormedLine : Line → Bool
  | Line.malformed => false
  | Line.good task =>
    (lookupField task "id").isSome && (lookupField task "ques").isSome

/-- The error processing a line raises, if any. -/
def lineError (patches : List (String × Patch)) : Line → Option RunError
  | Line.malformed => some RunError.parseError
  | Line.good task =>
    match processTask patches task with
    | Except.error e => some e
    | Except.ok _ => none

/-- The record a line contributes to the output file, if it is processed
without error. -/
def lineOut (patches : List (String × Patch)) : Line → Option Record
  | Line.malformed => none
  | Line.good task =>
    match processTask patches task with
    | Except.error _ => none
    | Except.ok (r, _, _) => some r

/-- The warning a line emits, if any. -/
def lineWarn (patches : List (String × Patch)) : Line → Option Warning
  | Line.malformed => none
  | Line.good task =>
    match processTask patches task with
    | Except.error _ => none
    | Except.ok (_, w, _) => w

/-- The spec's characterization of a counted patch: the record's id is a key
of the patch table and its current `ques` equals that patch's `prev`. -/
def idPrevMatch (patches : List (String × Patch)) : Line → Bool
  | Line.malformed => false
  | Line.good task =>
    match lookupField task "id" with
    | none => false
    | some task_id =>
      match tableLookup patches task_id with
      | none => false
      | some patch =>
        match lookupField task "ques" with
        | none => false
        | some q => JVal.eqStr q patch.prev

/-- The value at key `k` carried by the last pair with key `k` in the source
object, if any (the textual last occurrence). -/
def lastLookup : List (String × Patch) → String → Option Patch
  | [], _ => none
  | kp :: rest, k =>
    match lastLookup rest k with
    | some p => some p
    | none => if kp.1 == k then some kp.2 else none

/-! ### Association-list and dict lemmas -/

theorem lookupField_setField_self (r : Record) (k : String) (v : JVal) :
    lookupField (setField r k v) k = some v := by
  induction r with
  | nil => simp [setField, lookupField]
  | cons hd tl ih =>
    by_cases h : hd.1 = k
    · simp [setField, lookupField, h]
    · cases hd with
      | mk k' v' => simp_all [setField, lookupField]

theorem lookupField_setField_ne (r : Record) (k k' : String) (v : JVal)
    (h : k' ≠ k) : lookupField (setField r k v) k' = lookupField r k' := by
  induction r with
  | nil => simp [setField, lookupField, h, Ne.symm h]
  | cons hd tl ih =>
    by_cases hh : hd.1 = k
    · cases hd with
      | mk a b =>
        simp only at hh
        subst hh
        simp [setField, lookupField, h, Ne.symm h]
    · cases hd with
      | mk a b => simp_all [setField, lookupField]

theorem lookupPatch_insertLWW (tbl : List (String × Patch)) (k' : String)
    (p : Patch) (k : String) :
    lookupPatch (insertLWW tbl k' p) k =
      if k' == k then some p else lookupPatch tbl k := by
  induction tbl with
  | nil => simp [insertLWW, lookupPatch]
  | cons hd tl ih =>
    cases hd with
    | mk a q =>
      by_cases ha : a = k'
      · subst ha
        by_cases hk : a = k
        · simp [insertLWW, lookupPatch, hk]
        · simp [insertLWW, lookupPatch, hk]
      · by_cases hk : a = k
        · subst hk
          simp_all [insertLWW, lookupPatch, Ne.symm ha]
        · simp_all [insertLWW, lookupPatch]

theorem mem_keys_insertLWW (tbl : List (String × Patch)) (k' : String)
    (p : Patch) (x : String) :
    x ∈ (insertLWW tbl k' p).map Prod.fst ↔
      x ∈ tbl.map Prod.fst ∨ x = k' := by
  induction tbl with
  | nil => simp [insertLWW]
  | cons hd tl ih =>
    cases hd with
    | mk a q =>
      by_cases ha : a = k'
      · subst ha
        simp [insertLWW]
        tauto
      · simp [insertLWW, ha, ih]
        tauto

theorem nodup_keys_insertLWW (tbl : List (String × Patch)) (k' : String)
    (p : Patch) (h : (tbl.map Prod.fst).Nodup) :
    ((insertLWW tbl k' p).map Prod.fst).Nodup := by
  induction tbl with
  | nil => simp [insertLWW]
  | cons hd tl ih =>
    cases hd with
    | mk a q =>
      simp only [List.map_cons, List.nodup_cons] at h
      by_cases ha : a = k'
      · subst ha
        simpa [insertLWW] using h
      · rw [show insertLWW ((a, q) :: tl) k' p = (a, q) :: insertLWW tl k' p from by
            simp [insertLWW, ha]]
        simp only [List.map_cons, List.nodup_cons]
        refine ⟨?_, ih h.2⟩
        rw [mem_keys_insertLWW]
        rintro (hx | hx)
        · exact h.1 hx
        · exact ha hx

theorem foldl_insertLWW_lookup (src : List (String × Patch))
    (tbl : List (String × Patch)) (k : String) :
    lookupPatch (src.foldl (fun t kp => insertLWW t kp.1 kp.2) tbl) k =
      match lastLookup src k with
      | some p => some p
      | none => lookupPatch tbl k := by
  induction src generalizing tbl with
  | nil => simp [lastLookup]
  | cons kp rest ih =>
    simp only [List.foldl_cons, lastLookup]
    rw [ih]
    cases lastLookup rest k with
    | some p => simp
    | none =>
      simp only [lookupPatch_insertLWW]
      by_cases h : kp.1 = k
      · simp [h]
      · simp [h]

theorem foldl_insertLWW_nodup (src : List (String × Patch))
    (tbl : List (String × Patch)) (h : (tbl.map Prod.fst).Nodup) :
    (((src.foldl (fun t kp => insertLWW t kp.1 kp.2) tbl)).map Prod.fst).Nodup := by
  induction src generalizing tbl with
  | nil => simpa using h
  | cons kp rest ih =>
    simp only [List.foldl_cons]
    exact ih _ (nodup_keys_insertLWW _ _ _ h)

/-! ### Per-line processing lemmas -/

theorem processTask_no_patch (patches : List (String × Patch)) (task : Record)
    (task_id : JVal) (hid : lookupField task "id" = some task_id)
    (habs : tableLookup patches task_id = none) :
    processTask patches task = Except.ok (task, none, false) := by
  simp only [processTask, hid, habs]

theorem processTask_no_ques (patches : List (String × Patch)) (task : Record)
    (task_id : JVal) (patch : Patch)
    (hid : lookupField task "id" = some task_id)
    (hpat : tableLookup patches task_id = some patch)
    (hq : lookupField task "ques" = none) :
    processTask patches task = Except.error (RunError.missingField "ques") := by
  simp only [processTask, hid, hpat, hq]

theorem processTask_match (patches : List (String × Patch)) (task : Record)
    (task_id : JVal) (patch : Patch) (q : JVal)
    (hid : lookupField task "id" = some task_id)
    (hpat : tableLookup patches task_id = some patch)
    (hq : lookupField task "ques" = some q)
    (heq : JVal.eqStr q patch.prev = true) :
    processTask patches task =
      Except.ok (setField task "ques" (JVal.str patch.new), none, true) := by
  simp [processTask, hid, hpat, hq, heq]

theorem processTask_mismatch (patches : List (String × Patch)) (task : Record)
    (task_id : JVal) (patch : Patch) (q : JVal)
    (hid : lookupField task "id" = some task_id)
    (hpat : tableLookup patches task_id = some patch)
    (hq : lookupField task "ques" = some q)
    (hne : JVal.eqStr q patch.prev = false) :
    processTask patches task =
      Except.ok (task, some ⟨task_id, patch.prev, q⟩, false) := by
  simp [processTask, hid, hpat, hq, hne]

theorem idPrevMatch_eq (patches : List (String × Patch)) (task : Record)
    (r : Record) (w : Option Warning) (b : Bool)
    (hp : processTask patches task = Except.ok (r, w, b)) :
    idPrevMatch patches (Line.good task) = b := by
  unfold processTask at hp
  simp only [idPrevMatch]
  cases hid : lookupField task "id" with
  | none => simp [hid] at hp
  | some task_id =>
    simp only [hid] at hp ⊢
    cases hpat : tableLookup patches task_id with
    | none =>
      simp only [hpat] at hp ⊢
      simp at hp
      simp [hp]
    | some patch =>
      simp only [hpat] at hp ⊢
      cases hq : lookupField task "ques" with
      | none => simp [hq] at hp
      | some q =>
        simp only [hq] at hp ⊢
        by_cases heq : JVal.eqStr q patch.prev = true
        · simp only [heq, if_true] at hp
          simp at hp
          simp [heq, hp]
        · simp only [Bool.not_eq_true] at heq
          simp only [heq] at hp ⊢
          simp at hp
          simp [hp]

theorem lineOut_eq_of_ok (patches : List (String × Patch)) (task : Record)
    (r : Record) (w : Option Warning) (b : Bool)
    (hp : processTask patches task = Except.ok (r, w, b)) :
    lineOut patches (Line.good task) = some r := by
  simp [lineOut, hp]

theorem lineWarn_eq_of_ok (patches : List (String × Patch)) (task : Record)
    (r : Record) (w : Option Warning) (b : Bool)
    (hp : processTask patches task = Except.ok (r, w, b)) :
    lineWarn patches (Line.good task) = w := by
  simp [lineWarn, hp]

theorem processTask_ok_of_wf (patches : List (String × Patch)) (task : Record)
    (h : wellFormedLine (Line.good task) = true) :
    ∃ r w b, processTask patches task = Except.ok (r, w, b) ∧
      lookupField r "id" = lookupField task "id" := by
  simp only [wellFormedLine] at h
  rw [Bool.and_eq_true, Option.isSome_iff_exists, Option.isSome_iff_exists] at h
  obtain ⟨⟨task_id, hid⟩, ⟨q, hq⟩⟩ := h
  simp only [processTask, hid, hq]
  cases hpat : tableLookup patches task_id with
  | none =>
    simp only [hpat]
    exact ⟨task, none, false, rfl, hid⟩
  | some patch =>
    simp only [hpat]
    by_cases heq : JVal.eqStr q patch.prev = true
    · refine ⟨setField task "ques" (JVal.str patch.new), none, true, ?_, ?_⟩
      · simp [heq]
      · exact (lookupField_setField_ne task "ques" "id" _ (by decide)).trans hid
    · refine ⟨task, some ⟨task_id, patch.prev, q⟩, false, ?_, hid⟩
      simp [heq]

theorem lineError_none_of_wf (patches : List (String × Patch)) (l : Line)
    (h : wellFormedLine l = true) : lineError patches l = none := by
  cases l with
  | malformed => simp [wellFormedLine] at h
  | good task =>
    obtain ⟨r, w, b, hp, _⟩ := processTask_ok_of_wf patches task h
    simp [lineError, hp]

theorem lineOut_wf (patches : List (String × Patch)) (l : Line)
    (h : wellFormedLine l = true) :
    ∃ r, lineOut patches l = some r ∧ lookupField r "id" = lineId l := by
  cases l with
  | malformed => simp [wellFormedLine] at h
  | good task =>
    obtain ⟨r, w, b, hp, hid⟩ := processTask_ok_of_wf patches task h
    exact ⟨r, by simp [lineOut, hp], by simp [lineId, hid]⟩

theorem lineOut_of_no_error (patches : List (String × Patch)) (l : Line)
    (h : lineError patches l = none) : ∃ r, lineOut patches l = some r := by
  cases l with
  | malformed => simp [lineError] at h
  | good task =>
    simp only [lineError] at h
    cases hp : processTask patches task with
    | error e => simp [hp] at h
    | ok res =>
      obtain ⟨r, w, b⟩ := res
      exact ⟨r, by simp [lineOut, hp]⟩

/-! ### Loop lemmas -/

theorem runLines_ok (patches : List (String × Patch)) (lines : List Line)
    (st : RunState) (h : ∀ l ∈ lines, lineError patches l = none) :
    runLines patches lines st =
      (⟨st.output ++ lines.filterMap (lineOut patches),
        st.warnings ++ lines.filterMap (lineWarn patches),
        st.patched_count + lines.countP (idPrevMatch patches)⟩, none) := by
  induction lines generalizing st with
  | nil => simp [runLines]
  | cons l rest ih =>
    cases l with
    | malformed =>
      have hl := h Line.malformed (by simp)
      simp [lineError] at hl
    | good task =>
      have hl := h (Line.good task) (by simp)
      simp only [lineError] at hl
      cases hp : processTask patches task with
      | error e => simp [hp] at hl
      | ok res =>
        obtain ⟨r, w, b⟩ := res
        simp only [runLines, hp]
        rw [ih _ (fun x hx => h x (by simp [hx]))]
        have hb := idPrevMatch_eq patches task r w b hp
        have ho := lineOut_eq_of_ok patches task r w b hp
        have hw := lineWarn_eq_of_ok patches task r w b hp
        simp only [List.filterMap_cons, List.countP_cons, ho, hw, hb]
        cases w <;> cases b <;> simp <;> omega

theorem runLines_append_of_ok (patches : List (String × Patch))
    (l1 l2 : List Line) (st st' : RunState)
    (h : runLines patches l1 st = (st', none)) :
    runLines patches (l1 ++ l2) st = runLines patches l2 st' := by
  induction l1 generalizing st with
  | nil =>
    simp [runLines] at h
    simp [h]
  | cons l rest ih =>
    cases l with
    | malformed => simp [runLines] at h
    | good task =>
      cases hp : processTask patches task with
      | error e => simp [runLines, hp] at h
      | ok res =>
        obtain ⟨r, w, b⟩ := res
        simp only [List.cons_append, runLines, hp] at h ⊢
        exact ih _ h

theorem runLines_error_head (patches : List (String × Patch)) (bad : Line)
    (rest : List Line) (e : RunError)
    (hbad : lineError patches bad = some e) (st : RunState) :
    runLines patches (bad :: rest) st = (st, some e) := by
  cases bad with
  | malformed =>
    simp [lineError] at hbad
    simp [runLines, ← hbad]
  | good task =>
    simp only [lineError] at hbad
    cases hp : processTask patches task with
    | error e' =>
      simp only [hp] at hbad
      simp at hbad
      simp [runLines, hp, hbad]
    | ok res =>
      simp only [hp] at hbad
      simp at hbad

theorem length_filterMap_lineOut (patches : List (String × Patch))
    (lines : List Line) (h : ∀ l ∈ lines, lineError patches l = none) :
    (lines.filterMap (lineOut patches)).length = lines.length := by
  induction lines with
  | nil => rfl
  | cons l rest ih =>
    obtain ⟨r, hr⟩ := lineOut_of_no_error patches l (h l (by simp))
    simp [List.filterMap_cons, hr, ih (fun x hx => h x (by simp [hx]))]

theorem filterMap_lineOut_ids (patches : List (String × Patch))
    (lines : List Line) (h : ∀ l ∈ lines, wellFormedLine l = true) :
    (lines.filterMap (lineOut patches)).map (fun r => lookupField r "id") =
      lines.map lineId := by
  induction lines with
  | nil => rfl
  | cons l rest ih =>
    obtain ⟨r, hr, hrid⟩ := lineOut_wf patches l (h l (by simp))
    simp [List.filterMap_cons, hr, hrid, ih (fun x hx => h x (by simp [hx]))]

theorem run_ok (src : List (String × Patch)) (lines : List Line)
    (h : ∀ l ∈ lines, lineError (loadPatches src) l = none) :
    run (PatchSrc.ok src) lines =
      ⟨lines.filterMap (lineOut (loadPatches src)),
        lines.filterMap (lineWarn (loadPatches src)),
        some (lines.countP (idPrevMatch (loadPatches src)),
          (loadPatches src).length), none⟩ := by
  simp only [run]
  rw [runLines_ok _ _ _ h]
  simp

theorem run_error (src : List (String × Patch)) (pre rest : List Line)
    (bad : Line) (e : RunError)
    (hpre : ∀ l ∈ pre, lineError (loadPatches src) l = none)
    (hbad : lineError (loadPatches src) bad = some e) :
    run (PatchSrc.ok src) (pre ++ bad :: rest) =
      ⟨pre.filterMap (lineOut (loadPatches src)),
        pre.filterMap (lineWarn (loadPatches src)), none, some e⟩ := by
  simp only [run]
  rw [runLines_append_of_ok _ _ _ _ _ (runLines_ok _ _ _ hpre)]
  rw [runLines_error_head _ _ _ _ hbad _]
  simp

/-! ### Claims -/

/-- C1, counterexample: the claim's "if and only if" fails. With patch table
`{"1": {"prev": "a", "new": "b"}}` and record `{"id": "1", "ques": "b"}`, the
id is a key of the table but `ques` differs from `prev`, so the record passes
through unchanged — yet its emitted `ques` ("b") happens to equal the patch's
`new` value, making the left side of the biconditional true while the right
side is false. -/
theorem C1_counterexample :
    processTask [("1", Patch.mk "a" "b")]
        [("id", JVal.str "1"), ("ques", JVal.str "b")] =
      Except.ok ([("id", JVal.str "1"), ("ques", JVal.str "b")],
        some ⟨JVal.str "1", "a", JVal.str "b"⟩, false) ∧
    lookupField [("id", JVal.str "1"), ("ques", JVal.str "b")] "ques" =
      some (JVal.str (Patch.mk "a" "b").new) ∧
    tableLookup [("1", Patch.mk "a" "b")] (JVal.str "1") =
      some (Patch.mk "a" "b") ∧
    JVal.eqStr (JVal.str "b") (Patch.mk "a" "b").prev = false :=
  ⟨rfl, rfl, rfl, rfl⟩

/-- C1, amended: for every record processed without error, if the record's id
is a key of the patch table and its current `ques` equals that patch's `prev`,
the emitted `ques` equals the patch's `new`; in every other case the emitted
record is the input record and its `ques` equals the input `ques` (which may
coincidentally equal the patch's `new`). -/
theorem C1_patch_application (patches : List (String × Patch)) (task : Record)
    (task_id q : JVal) (r : Record) (w : Option Warning) (b : Bool)
    (hid : lookupField task "id" = some task_id)
    (hq : lookupField task "ques" = some q)
    (hp : processTask patches task = Except.ok (r, w, b)) :
    (∀ patch, tableLookup patches task_id = some patch →
      (JVal.eqStr q patch.prev = true →
        lookupField r "ques" = some (JVal.str patch.new)) ∧
      (JVal.eqStr q patch.prev = false →
        r = task ∧ lookupField r "ques" = some q)) ∧
    (tableLookup patches task_id = none →
      r = task ∧ lookupField r "ques" = some q) := by
  constructor
  · intro patch hpat
    constructor
    · intro heq
      rw [processTask_match patches task task_id patch q hid hpat hq heq] at hp
      simp only [Except.ok.injEq, Prod.mk.injEq] at hp
      rw [← hp.1]
      exact lookupField_setField_self task "ques" (JVal.str patch.new)
    · intro hne
      rw [processTask_mismatch patches task task_id patch q hid hpat hq hne] at hp
      simp only [Except.ok.injEq, Prod.mk.injEq] at hp
      rw [← hp.1]
      exact ⟨rfl, hq⟩
  · intro habs
    rw [processTask_no_patch patches task task_id hid habs] at hp
    simp only [Except.ok.injEq, Prod.mk.injEq] at hp
    rw [← hp.1]
    exact ⟨rfl, hq⟩

/-- C1, witness: the amended theorem applied to the mismatch record
`{"id": "1", "ques": "x"}` against patch `{"1": {"prev": "a", "new": "b"}}`. -/
theorem C1_patch_application_witness :
    lookupField [("id", JVal.str "1"), ("ques", JVal.str "x")] "id" =
      some (JVal.str "1") ∧
    lookupField [("id", JVal.str "1"), ("ques", JVal.str "x")] "ques" =
      some (JVal.str "x") ∧
    processTask [("1", Patch.mk "a" "b")]
        [("id", JVal.str "1"), ("ques", JVal.str "x")] =
      Except.ok ([("id", JVal.str "1"), ("ques", JVal.str "x")],
        some ⟨JVal.str "1", "a", JVal.str "x"⟩, false) ∧
    ((∀ patch, tableLookup [("1", Patch.mk "a" "b")] (JVal.str "1") =
          some patch →
        (JVal.eqStr (JVal.str "x") patch.prev = true →
          lookupField [("id", JVal.str "1"), ("ques", JVal.str "x")] "ques" =
            some (JVal.str patch.new)) ∧
        (JVal.eqStr (JVal.str "x") patch.prev = false →
          [("id", JVal.str "1"), ("ques", JVal.str "x")] =
              [("id", JVal.str "1"), ("ques", JVal.str "x")] ∧
          lookupField [("id", JVal.str "1"), ("ques", JVal.str "x")] "ques" =
            some (JVal.str "x"))) ∧
      (tableLookup [("1", Patch.mk "a" "b")] (JVal.str "1") = none →
        [("id", JVal.str "1"), ("ques", JVal.str "x")] =
            [("id", JVal.str "1"), ("ques", JVal.str "x")] ∧
        lookupField [("id", JVal.str "1"), ("ques", JVal.str "x")] "ques" =
          some (JVal.str "x"))) :=
  ⟨rfl, rfl, rfl,
    C1_patch_application [("1", Patch.mk "a" "b")]
      [("id", JVal.str "1"), ("ques", JVal.str "x")] (JVal.str "1")
      (JVal.str "x") [("id", JVal.str "1"), ("ques", JVal.str "x")]
      (some ⟨JVal.str "1", "a", JVal.str "x"⟩) false rfl rfl rfl⟩

/-- C2: a record whose id is absent from the patch table is emitted
byte-for-byte structurally identical (every field, `ques` and opaque fields
included), with no warning and no count increment, and processing continues
with the remaining lines. -/
theorem C2_no_match_identity (patches : List (String × Patch)) (task : Record)
    (task_id : JVal) (rest : List Line) (st : RunState)
    (hid : lookupField task "id" = some task_id)
    (habs : tableLookup patches task_id = none) :
    processTask patches task = Except.ok (task, none, false) ∧
    runLines patches (Line.good task :: rest) st =
      runLines patches rest
        ⟨st.output ++ [task], st.warnings, st.patched_count⟩ := by
  have h1 := processTask_no_patch patches task task_id hid habs
  exact ⟨h1, by simp [runLines, h1]⟩

/-- C2, witness: the identity theorem applied to the record
`{"id": "9", "k": 3}` (an opaque extra field, no `ques`) and a table with no
entry for id "9". -/
theorem C2_no_match_identity_witness :
    lookupField [("id", JVal.str "9"), ("k", JVal.num 3)] "id" =
      some (JVal.str "9") ∧
    tableLookup [("1", Patch.mk "a" "b")] (JVal.str "9") = none ∧
    (processTask [("1", Patch.mk "a" "b")]
        [("id", JVal.str "9"), ("k", JVal.num 3)] =
      Except.ok ([("id", JVal.str "9"), ("k", JVal.num 3)], none, false) ∧
    runLines [("1", Patch.mk "a" "b")]
        [Line.good [("id", JVal.str "9"), ("k", JVal.num 3)]] ⟨[], [], 0⟩ =
      runLines [("1", Patch.mk "a" "b")] []
        ⟨[[("id", JVal.str "9"), ("k", JVal.num 3)]], [], 0⟩) :=
  ⟨rfl, rfl,
    C2_no_match_identity [("1", Patch.mk "a" "b")]
      [("id", JVal.str "9"), ("k", JVal.num 3)] (JVal.str "9") [] ⟨[], [], 0⟩
      rfl rfl⟩

/-- C3: on an id match whose `prev` precondition fails, the record is emitted
unmodified, `patched_count` is not incremented, a warning carrying the id, the
expected `prev` text and the actual `ques` value is appended to the diagnostic
channel (the `stderr` warning list, separate from the output record list), and
processing continues with the next lines. -/
theorem C3_mismatch_recovery (patches : List (String × Patch)) (task : Record)
    (task_id : JVal) (patch : Patch) (q : JVal) (rest : List Line)
    (st : RunState)
    (hid : lookupField task "id" = some task_id)
    (hpat : tableLookup patches task_id = some patch)
    (hq : lookupField task "ques" = some q)
    (hne : JVal.eqStr q patch.prev = false) :
    processTask patches task =
      Except.ok (task, some ⟨task_id, patch.prev, q⟩, false) ∧
    runLines patches (Line.good task :: rest) st =
      runLines patches rest
        ⟨st.output ++ [task], st.warnings ++ [⟨task_id, patch.prev, q⟩],
          st.patched_count⟩ := by
  have h1 := processTask_mismatch patches task task_id patch q hid hpat hq hne
  exact ⟨h1, by simp [runLines, h1]⟩

/-- C3, witness: the mismatch theorem applied to record
`{"id": "1", "ques": "x"}` against patch `{"1": {"prev": "a", "new": "b"}}`. -/
theorem C3_mismatch_recovery_witness :
    lookupField [("id", JVal.str "1"), ("ques", JVal.str "x")] "id" =
      some (JVal.str "1") ∧
    tableLookup [("1", Patch.mk "a" "b")] (JVal.str "1") =
      some (Patch.mk "a" "b") ∧
    lookupField [("id", JVal.str "1"), ("ques", JVal.str "x")] "ques" =
      some (JVal.str "x") ∧
    JVal.eqStr (JVal.str "x") (Patch.mk "a" "b").prev = false ∧
    (processTask [("1", Patch.mk "a" "b")]
        [("id", JVal.str "1"), ("ques", JVal.str "x")] =
      Except.ok ([("id", JVal.str "1"), ("ques", JVal.str "x")],
        some ⟨JVal.str "1", "a", JVal.str "x"⟩, false) ∧
    runLines [("1", Patch.mk "a" "b")]
        [Line.good [("id", JVal.str "1"), ("ques", JVal.str "x")]]
        ⟨[], [], 0⟩ =
      runLines [("1", Patch.mk "a" "b")] []
        ⟨[[("id", JVal.str "1"), ("ques", JVal.str "x")]],
          [⟨JVal.str "1", "a", JVal.str "x"⟩], 0⟩) :=
  ⟨rfl, rfl, rfl, rfl,
    C3_mismatch_recovery [("1", Patch.mk "a" "b")]
      [("id", JVal.str "1"), ("ques", JVal.str "x")] (JVal.str "1")
      (Patch.mk "a" "b") (JVal.str "x") [] ⟨[], [], 0⟩ rfl rfl rfl rfl⟩

/-- C4: for an input of N well-formed records the run emits exactly N records,
and the sequence of ids in the output equals the sequence of ids in the
input. -/
theorem C4_order_preservation (src : List (String × Patch)) (lines : List Line)
    (h : ∀ l ∈ lines, wellFormedLine l = true) :
    (run (PatchSrc.ok src) lines).output.length = lines.length ∧
    (run (PatchSrc.ok src) lines).output.map (fun r => lookupField r "id") =
      lines.map lineId := by
  have herr : ∀ l ∈ lines, lineError (loadPatches src) l = none :=
    fun l hl => lineError_none_of_wf _ l (h l hl)
  rw [run_ok src lines herr]
  exact ⟨length_filterMap_lineOut _ _ herr, filterMap_lineOut_ids _ _ h⟩

/-- C4, witness: order preservation applied to a two-record input. -/
theorem C4_order_preservation_witness :
    (∀ l ∈ [Line.good [("id", JVal.str "1"), ("ques", JVal.str "old")],
        Line.good [("id", JVal.str "2"), ("ques", JVal.str "keep")]],
      wellFormedLine l = true) ∧
    ((run (PatchSrc.ok [("1", Patch.mk "old" "new")])
        [Line.good [("id", JVal.str "1"), ("ques", JVal.str "old")],
          Line.good [("id", JVal.str "2"), ("ques", JVal.str "keep")]]).output.length =
      [Line.good [("id", JVal.str "1"), ("ques", JVal.str "old")],
        Line.good [("id", JVal.str "2"), ("ques", JVal.str "keep")]].length ∧
    (run (PatchSrc.ok [("1", Patch.mk "old" "new")])
        [Line.good [("id", JVal.str "1"), ("ques", JVal.str "old")],
          Line.good [("id", JVal.str "2"), ("ques", JVal.str "keep")]]).output.map
        (fun r => lookupField r "id") =
      [Line.good [("id", JVal.str "1"), ("ques", JVal.str "old")],
        Line.good [("id", JVal.str "2"), ("ques", JVal.str "keep")]].map lineId) :=
  ⟨(fun l hl => by
      simp only [List.mem_cons, List.not_mem_nil, or_false] at hl
      rcases hl with rfl | rfl <;> rfl),
    C4_order_preservation [("1", Patch.mk "old" "new")]
      [Line.good [("id", JVal.str "1"), ("ques", JVal.str "old")],
        Line.good [("id", JVal.str "2"), ("ques", JVal.str "keep")]]
      (fun l hl => by
        simp only [List.mem_cons, List.not_mem_nil, or_false] at hl
        rcases hl with rfl | rfl <;> rfl)⟩

/-- C5: on a well-formed input the printed summary reports `patched_count`
equal to the number of records for which both the id lookup and the `prev`
comparison succeeded, out of a total equal to the number of entries of the
loaded patch table, however many patches were used. -/
theorem C5_summary_correct (src : List (String × Patch)) (lines : List Line)
    (h : ∀ l ∈ lines, wellFormedLine l = true) :
    (run (PatchSrc.ok src) lines).summary =
      some (lines.countP (idPrevMatch (loadPatches src)),
        (loadPatches src).length) := by
  have herr : ∀ l ∈ lines, lineError (loadPatches src) l = none :=
    fun l hl => lineError_none_of_wf _ l (h l hl)
  rw [run_ok src lines herr]

/-- C5, witness: the summary theorem applied to a two-record input with one
applied patch and one unused table entry. -/
theorem C5_summary_correct_witness :
    (∀ l ∈ [Line.good [("id", JVal.str "1"), ("ques", JVal.str "old")],
        Line.good [("id", JVal.str "2"), ("ques", JVal.str "keep")]],
      wellFormedLine l = true) ∧
    (run (PatchSrc.ok [("1", Patch.mk "old" "new"), ("7", Patch.mk "u" "v")])
        [Line.good [("id", JVal.str "1"), ("ques", JVal.str "old")],
          Line.good [("id", JVal.str "2"), ("ques", JVal.str "keep")]]).summary =
      some ([Line.good [("id", JVal.str "1"), ("ques", JVal.str "old")],
          Line.good [("id", JVal.str "2"), ("ques", JVal.str "keep")]].countP
          (idPrevMatch (loadPatches
            [("1", Patch.mk "old" "new"), ("7", Patch.mk "u" "v")])),
        (loadPatches
          [("1", Patch.mk "old" "new"), ("7", Patch.mk "u" "v")]).length) :=
  ⟨(fun l hl => by
      simp only [List.mem_cons, List.not_mem_nil, or_false] at hl
      rcases hl with rfl | rfl <;> rfl),
    C5_summary_correct [("1", Patch.mk "old" "new"), ("7", Patch.mk "u" "v")]
      [Line.good [("id", JVal.str "1"), ("ques", JVal.str "old")],
        Line.good [("id", JVal.str "2"), ("ques", JVal.str "keep")]]
      (fun l hl => by
        simp only [List.mem_cons, List.not_mem_nil, or_false] at hl
        rcases hl with rfl | rfl <;> rfl)⟩

/-- C6: a malformed patch table aborts with nothing written; an unparseable
record line or a record that raises a missing-field KeyError aborts the run at
that line — exactly the records of the preceding lines have been written, no
further record is emitted, and the summary is not printed. -/
theorem C6_abort_on_error (src : List (String × Patch)) (pre rest : List Line)
    (bad : Line) (e : RunError)
    (hpre : ∀ l ∈ pre, lineError (loadPatches src) l = none)
    (hbad : lineError (loadPatches src) bad = some e) :
    (run (PatchSrc.ok src) (pre ++ bad :: rest)).output =
      pre.filterMap (lineOut (loadPatches src)) ∧
    (run (PatchSrc.ok src) (pre ++ bad :: rest)).output.length = pre.length ∧
    (run (PatchSrc.ok src) (pre ++ bad :: rest)).summary = none ∧
    (run (PatchSrc.ok src) (pre ++ bad :: rest)).errored = some e ∧
    run PatchSrc.malformed (pre ++ bad :: rest) =
      ⟨[], [], none, some RunError.patchLoadError⟩ := by
  rw [run_error src pre rest bad e hpre hbad]
  exact ⟨rfl, length_filterMap_lineOut _ _ hpre, rfl, rfl, rfl⟩

/-- C6, witness: the abort theorem applied to one good record followed by an
unparseable line. -/
theorem C6_abort_on_error_witness :
    (∀ l ∈ [Line.good [("id", JVal.str "1"), ("ques", JVal.str "old")]],
      lineError (loadPatches []) l = none) ∧
    lineError (loadPatches []) Line.malformed = some RunError.parseError ∧
    ((run (PatchSrc.ok [])
        ([Line.good [("id", JVal.str "1"), ("ques", JVal.str "old")]] ++
          Line.malformed ::
            [Line.good [("id", JVal.str "2"), ("ques", JVal.str "keep")]])).output =
      [Line.good [("id", JVal.str "1"), ("ques", JVal.str "old")]].filterMap
        (lineOut (loadPatches [])) ∧
    (run (PatchSrc.ok [])
        ([Line.good [("id", JVal.str "1"), ("ques", JVal.str "old")]] ++
          Line.malformed ::
            [Line.good [("id", JVal.str "2"), ("ques", JVal.str "keep")]])).output.length =
      [Line.good [("id", JVal.str "1"), ("ques", JVal.str "old")]].length ∧
    (run (PatchSrc.ok [])
        ([Line.good [("id", JVal.str "1"), ("ques", JVal.str "old")]] ++
          Line.malformed ::
            [Line.good [("id", JVal.str "2"), ("ques", JVal.str "keep")]])).summary =
      none ∧
    (run (PatchSrc.ok [])
        ([Line.good [("id", JVal.str "1"), ("ques", JVal.str "old")]] ++
          Line.malformed ::
            [Line.good [("id", JVal.str "2"), ("ques", JVal.str "keep")]])).errored =
      some RunError.parseError ∧
    run PatchSrc.malformed
        ([Line.good [("id", JVal.str "1"), ("ques", JVal.str "old")]] ++
          Line.malformed ::
            [Line.good [("id", JVal.str "2"), ("ques", JVal.str "keep")]]) =
      ⟨[], [], none, some RunError.patchLoadError⟩) :=
  ⟨(fun l hl => by
      simp only [List.mem_singleton] at hl
      subst hl
      rfl),
    rfl,
    C6_abort_on_error []
      [Line.good [("id", JVal.str "1"), ("ques", JVal.str "old")]]
      [Line.good [("id", JVal.str "2"), ("ques", JVal.str "keep")]]
      Line.malformed RunError.parseError
      (fun l hl => by
        simp only [List.mem_singleton] at hl
        subst hl
        rfl)
      rfl⟩

/-- C7: loading a patch-table source with duplicate task-id keys yields a
table whose lookup at every key returns the last occurrence's patch record
(last-write-wins), and whose keys are unique. -/
theorem C7_last_write_wins (src : List (String × Patch)) (k : String) :
    lookupPatch (loadPatches src) k = lastLookup src k ∧
    ((loadPatches src).map Prod.fst).Nodup := by
  constructor
  · rw [show loadPatches src =
        src.foldl (fun tbl kp => insertLWW tbl kp.1 kp.2) [] from rfl,
      foldl_insertLWW_lookup]
    cases lastLookup src k <;> simp [lookupPatch]
  · exact foldl_insertLWW_nodup src [] (by simp)

/-- C8: on input records `{"id": "1", "ques": "old"}` and
`{"id": "2", "ques": "keep"}` with patch table
`{"1": {"prev": "old", "new": "new"}}`, the run emits exactly
`{"id": "1", "ques": "new"}` then `{"id": "2", "ques": "keep"}`, prints
"Applied 1 patches out of 1 available patches", and emits no warnings. -/
theorem C8_end_to_end :
    run (PatchSrc.ok [("1", Patch.mk "old" "new")])
        [Line.good [("id", JVal.str "1"), ("ques", JVal.str "old")],
          Line.good [("id", JVal.str "2"), ("ques", JVal.str "keep")]] =
      ⟨[[("id", JVal.str "1"), ("ques", JVal.str "new")],
          [("id", JVal.str "2"), ("ques", JVal.str "keep")]],
        [], some (1, 1), none⟩ ∧
    summaryText (run (PatchSrc.ok [("1", Patch.mk "old" "new")])
        [Line.good [("id", JVal.str "1"), ("ques", JVal.str "old")],
          Line.good [("id", JVal.str "2"), ("ques", JVal.str "keep")]]) =
      some "Applied 1 patches out of 1 available patches" :=
  ⟨rfl, rfl⟩

/-- C9: a record lacking `ques` passes through unchanged when its id is not a
key of the patch table, but aborts the run with a missing-field error (a
KeyError on `ques`) when its id is a key — the code reads `task['ques']` only
after a successful id lookup. -/
theorem C9_missing_ques (patches : List (String × Patch)) (task : Record)
    (task_id : JVal) (rest : List Line) (st : RunState)
    (hid : lookupField task "id" = some task_id)
    (hq : lookupField task "ques" = none) :
    (tableLookup patches task_id = none →
      processTask patches task = Except.ok (task, none, false) ∧
      runLines patches (Line.good task :: rest) st =
        runLines patches rest
          ⟨st.output ++ [task], st.warnings, st.patched_count⟩) ∧
    (∀ patch, tableLookup patches task_id = some patch →
      runLines patches (Line.good task :: rest) st =
        (st, some (RunError.missingField "ques"))) := by
  constructor
  · intro habs
    have h1 := processTask_no_patch patches task task_id hid habs
    exact ⟨h1, by simp [runLines, h1]⟩
  · intro patch hpat
    have h1 := processTask_no_ques patches task task_id patch hid hpat hq
    simp [runLines, h1]

/-- C9, witness: the missing-`ques` theorem applied to record `{"id": "1"}`
and the table `{"1": {"prev": "a", "new": "b"}}` whose entry triggers the
abort branch. -/
theorem C9_missing_ques_witness :
    lookupField [("id", JVal.str "1")] "id" = some (JVal.str "1") ∧
    lookupField [("id", JVal.str "1")] "ques" = none ∧
    ((tableLookup [("1", Patch.mk "a" "b")] (JVal.str "1") = none →
      processTask [("1", Patch.mk "a" "b")] [("id", JVal.str "1")] =
        Except.ok ([("id", JVal.str "1")], none, false) ∧
      runLines [("1", Patch.mk "a" "b")]
          [Line.good [("id", JVal.str "1")]] ⟨[], [], 0⟩ =
        runLines [("1", Patch.mk "a" "b")] []
          ⟨[[("id", JVal.str "1")]], [], 0⟩) ∧
    (∀ patch, tableLookup [("1", Patch.mk "a" "b")] (JVal.str "1") =
        some patch →
      runLines [("1", Patch.mk "a" "b")]
          [Line.good [("id", JVal.str "1")]] ⟨[], [], 0⟩ =
        (⟨[], [], 0⟩, some (RunError.missingField "ques")))) :=
  ⟨rfl, rfl,
    C9_missing_ques [("1", Patch.mk "a" "b")] [("id", JVal.str "1")]
      (JVal.str "1") [] ⟨[], [], 0⟩ rfl rfl⟩

/-- C10: the run is deterministic — equal patch tables and equal record
streams produce equal outputs, warnings, and summary lines (the whole run is
a pure function of its two inputs; the patch table is a read-only parameter
throughout). -/
theorem C10_deterministic (src src' : PatchSrc) (lines lines' : List Line)
    (hs : src = src') (hl : lines = lines') :
    run src lines = run src' lines' ∧
    summaryText (run src lines) = summaryText (run src' lines') := by
  rw [hs, hl]
  exact ⟨rfl, rfl⟩

/-- C10, witness: determinism applied to the end-to-end scenario's inputs. -/
theorem C10_deterministic_witness :
    PatchSrc.ok [("1", Patch.mk "old" "new")] =
      PatchSrc.ok [("1", Patch.mk "old" "new")] ∧
    [Line.good [("id", JVal.str "1"), ("ques", JVal.str "old")]] =
      [Line.good [("id", JVal.str "1"), ("ques", JVal.str "old")]] ∧
    (run (PatchSrc.ok [("1", Patch.mk "old" "new")])
        [Line.good [("id", JVal.str "1"), ("ques", JVal.str "old")]] =
      run (PatchSrc.ok [("1", Patch.mk "old" "new")])
        [Line.good [("id", JVal.str "1"), ("ques", JVal.str "old")]] ∧
    summaryText (run (PatchSrc.ok [("1", Patch.mk "old" "new")])
        [Line.good [("id", JVal.str "1"), ("ques", JVal.str "old")]]) =
      summaryText (run (PatchSrc.ok [("1", Patch.mk "old" "new")])
        [Line.good [("id", JVal.str "1"), ("ques", JVal.str "old")]])) :=
  ⟨rfl, rfl,
    C10_deterministic (PatchSrc.ok [("1", Patch.mk "old" "new")])
      (PatchSrc.ok [("1", Patch.mk "old" "new")])
      [Line.good [("id", JVal.str "1"), ("ques", JVal.str "old")]]
      [Line.good [("id", JVal.str "1"), ("ques", JVal.str "old")]] rfl rfl⟩

end PatchTasks
